import Mathlib

/-!
Shallow embedding of the gerrit Concourse resource (package `main` of the
`concourse-resources` repository, files `gerrit/in.go` and `gerrit/out.go`),
together with theorems settling the specification claims about it.

Go strings are Lean `String`s, Go `int` is Lean `Int`, Go maps are association
lists looked up front-to-back, Go `error` results are `Except String`, and the
external collaborators (the git binary, the filesystem, the Gerrit REST
client, the auth manager) are parameters of the embedded operations, recorded
in an explicit trace.
-/

set_option autoImplicit false

namespace ConcourseGerrit

/-! ## Data model -/

/-- JSON values, modelling the `encoding/json` documents the resource reads
and writes (only the constructors the marker file needs). -/
inductive Json where
  | str : String → Json
  | num : Int → Json
  | obj : List (String × Json) → Json
  deriving Repr

/-- Modelled from the spec (the file defining `Version` is not under `src/`):
a Version identifies a single reviewable unit by change identifier, revision
identifier and a creation timestamp (modelled as a unix-time integer). -/
structure Version where
  changeId : String
  revision : String
  created : Int
  deriving DecidableEq, Repr

/-- Modelled from the spec: "Equality is defined by change identifier +
revision identifier only." -/
def Version.Equal (v other : Version) : Bool :=
  v.changeId == other.changeId && v.revision == other.revision

/-- Modelled from the spec: `Version.WriteToFile` marshals the Version as "a
small JSON document recording the resolved Version"; this is the document
written to the marker file. -/
def Version.toJson (v : Version) : Json :=
  .obj [("change_id", .str v.changeId), ("revision", .str v.revision),
        ("created", .num v.created)]

/-- First binding of key `k` in a JSON-object field list. -/
def jsonLookup (fields : List (String × Json)) (k : String) : Option Json :=
  (fields.find? (fun p => p.1 == k)).map (fun p => p.2)

/-- Decode a string-valued field the way `json.Unmarshal` does: a missing
field keeps the zero value, a field of the wrong kind is an error. -/
def jsonFieldStr (fields : List (String × Json)) (k : String) : Option String :=
  match jsonLookup fields k with
  | none => some ""
  | some (.str s) => some s
  | some _ => none

/-- Decode an integer-valued field; a missing field keeps the zero value. -/
def jsonFieldNum (fields : List (String × Json)) (k : String) : Option Int :=
  match jsonLookup fields k with
  | none => some 0
  | some (.num n) => some n
  | some _ => none

/-- Modelled from the spec: `Version.ReadFromFile` unmarshals the marker
file's JSON document back into a Version. -/
def Version.fromJson : Json → Option Version
  | .obj fields => do
    let changeId ← jsonFieldStr fields "change_id"
    let revision ← jsonFieldStr fields "revision"
    let created ← jsonFieldNum fields "created"
    pure { changeId := changeId, revision := revision, created := created }
  | _ => none

/-- One fetch endpoint of a revision (`gerrit.FetchInfo`): URL and ref. -/
structure FetchInfo where
  url : String
  ref : String
  deriving DecidableEq, Repr

/-- The part of `gerrit.RevisionInfo` the resource reads: patch-set number,
optional uploader (name, email), the native fetch ref, and the map from
transport-protocol name to fetch endpoint. -/
structure RevisionInfo where
  patchSetNumber : Int
  uploader : Option (String × String)
  ref : String
  fetch : List (String × FetchInfo)
  deriving DecidableEq, Repr

/-- The part of `gerrit.ChangeInfo` the resource reads. -/
structure ChangeInfo where
  id : String
  project : String
  subject : String
  changeNumber : Int
  deriving DecidableEq, Repr

/-- The part of `Source` the embedded operations read: the base service URL
(the other configuration fields feed only the external collaborators). -/
structure Source where
  url : String
  deriving DecidableEq, Repr

/-- `inParams` of `gerrit/in.go`: optional explicit fetch protocol and URL. -/
structure InParams where
  fetchProtocol : String
  fetchUrl : String
  deriving DecidableEq, Repr

/-! ## Fetch-argument resolution (`gerrit/in.go`, `resolveFetchArgs`) -/

/-- The fixed protocol preference list `defaultFetchProtocols`. -/
def defaultFetchProtocols : List String := ["http", "anonymous http"]

/-- Go map indexing `rev.Fetch[proto]` on the association-list model. -/
def lookupFetch (fetch : List (String × FetchInfo)) (proto : String) :
    Option FetchInfo :=
  (fetch.find? (fun p => p.1 == proto)).map (fun p => p.2)

/-- The protocol-selection loop of `resolveFetchArgs`: starting from the empty
protocol name, scan `defaultFetchProtocols` in order and take the first
protocol present in the fetch map, keeping `""` when none is. -/
def selectProtocol (fetch : List (String × FetchInfo)) : String :=
  match defaultFetchProtocols.find? (fun proto => (lookupFetch fetch proto).isSome) with
  | some proto => proto
  | none => ""

/-- `resolveFetchArgs` of `gerrit/in.go`: an explicit URL is used verbatim
with the revision's native ref; otherwise the explicit protocol, or the first
preferred protocol present, is looked up in the fetch map, failing when the
selected protocol has no entry. -/
def resolveFetchArgs (params : InParams) (rev : RevisionInfo) :
    Except String (List String) :=
  let fetchUrl := params.fetchUrl
  let fetchRef := rev.ref
  if fetchUrl = "" then
    let fetchProtocol :=
      if params.fetchProtocol = "" then selectProtocol rev.fetch
      else params.fetchProtocol
    match lookupFetch rev.fetch fetchProtocol with
    | some fetchInfo => .ok ["fetch", fetchInfo.url, fetchInfo.ref]
    | none =>
        .error ("no fetch info for protocol \"" ++ fetchProtocol ++ "\"")
  else
    .ok ["fetch", fetchUrl, fetchRef]

/-- The protocol `resolveFetchArgs` ends up looking up when no explicit URL is
given: the explicit one if non-empty, else the scanned preference. -/
def selectedProtocol (params : InParams) (rev : RevisionInfo) : String :=
  if params.fetchProtocol = "" then selectProtocol rev.fetch
  else params.fetchProtocol

/-! ## URL parsing and path joining (`net/url.Parse`, `path.Join`)

The Go standard library collaborators of `buildRevisionLink`, embedded for
the subset the resource exercises: scheme/authority/path URLs without
user-info, query, fragment or percent-escapes. -/

/-- A parsed URL: scheme, authority host, path. -/
structure URL where
  scheme : String
  host : String
  path : String
  deriving DecidableEq, Repr

/-- Control bytes make a raw URL unparseable (`net/url` rejects ASCII
control characters). -/
def containsCTLByte (cs : List Char) : Bool :=
  cs.any (fun c => c.toNat < 0x20 || c.toNat == 0x7f)

/-- Scheme extraction of `url.Parse`: a scheme is a leading letter followed
by letters, digits, `+`, `-` or `.`, terminated by `:`; a leading `:` is the
"missing protocol scheme" error; anything else means no scheme, and the whole
input is left as the rest. Returns the lowercased scheme and the rest. -/
def getSchemeAux (orig : List Char) :
    List Char → List Char → Except String (String × List Char)
  | [], _ => .ok ("", orig)
  | c :: rest, acc =>
    if c.isAlpha then getSchemeAux orig rest (c :: acc)
    else if c.isDigit || c == '+' || c == '-' || c == '.' then
      if acc.isEmpty then .ok ("", orig) else getSchemeAux orig rest (c :: acc)
    else if c == ':' then
      if acc.isEmpty then .error "missing protocol scheme"
      else .ok (String.mk (acc.reverse.map Char.toLower), rest)
    else .ok ("", orig)

/-- `url.Parse` on the modelled subset: reject control characters, extract
the scheme, then split `//host/path` into authority and path; without an
authority the rest is the path, and a colon in the first path segment of a
scheme-less URL is an error. -/
def parseURL (rawURL : String) : Except String URL :=
  if containsCTLByte rawURL.data then
    .error "net/url: invalid control character in URL"
  else
    match getSchemeAux rawURL.data rawURL.data [] with
    | .error e => .error e
    | .ok (scheme, rest) =>
      match rest with
      | '/' :: '/' :: afterSlashes =>
        let host := afterSlashes.takeWhile (fun c => c != '/')
        let path := afterSlashes.dropWhile (fun c => c != '/')
        .ok { scheme := scheme, host := String.mk host, path := String.mk path }
      | _ =>
        if scheme.isEmpty then
          let seg := rest.takeWhile (fun c => c != '/')
          if seg.contains ':' then
            .error "first path segment in URL cannot contain colon"
          else .ok { scheme := "", host := "", path := String.mk rest }
        else .ok { scheme := scheme, host := "", path := String.mk rest }

/-- `url.URL.String` on the modelled subset: `scheme:` when present, `//host`
when present, then the path, with a `/` inserted between a non-empty host and
a non-empty path that does not already start with one. -/
def urlToString (u : URL) : String :=
  (if u.scheme.isEmpty then "" else u.scheme ++ ":") ++
  (if u.host.isEmpty then "" else "//" ++ u.host) ++
  (if !u.path.isEmpty && u.path.data.head? != some '/' && !u.host.isEmpty
   then "/" else "") ++
  u.path

/-- Split a character list on `/`. -/
def splitSlashAux : List Char → List Char → List (List Char)
  | [], acc => [acc.reverse]
  | '/' :: rest, acc => acc.reverse :: splitSlashAux rest []
  | c :: rest, acc => splitSlashAux rest (c :: acc)

/-- Path segments of a character list (boundaries at every `/`). -/
def splitSlash (cs : List Char) : List (List Char) := splitSlashAux cs []

/-- One step of `path.Clean`'s element processing on the stack of kept
segments: `..` pops a kept non-`..` segment, is dropped at the top of a
rooted path, and is kept otherwise; every other segment is pushed. -/
def cleanFold (rooted : Bool) (acc : List (List Char)) (s : List Char) :
    List (List Char) :=
  if s == ['.', '.'] then
    match acc with
    | [] => if rooted then [] else [s]
    | a :: rest => if a == ['.', '.'] then s :: acc else rest
  else s :: acc

/-- Interleave `/` between segments. -/
def intercalateSlash : List (List Char) → List Char
  | [] => []
  | [s] => s
  | s :: rest => s ++ '/' :: intercalateSlash rest

/-- `path.Clean`: empty path becomes `.`; otherwise drop empty and `.`
segments, resolve `..` against the kept segments, and reassemble, restoring
the leading `/` of a rooted path and yielding `.` for an emptied relative
path. -/
def cleanPath (p : String) : String :=
  if p.data.isEmpty then "." else
  let rooted := p.data.head? == some '/'
  let segs :=
    ((splitSlash p.data).filter (fun s => !(s.isEmpty || s == ['.']))).foldl
      (cleanFold rooted) []
  let joined := intercalateSlash segs.reverse
  if rooted then String.mk ('/' :: joined)
  else if joined.isEmpty then "." else String.mk joined

/-- `path.Join`: drop empty elements, join the rest with `/`, clean; all
elements empty yields the empty string. -/
def pathJoin (elems : List String) : String :=
  let ne := elems.filter (fun e => !e.data.isEmpty)
  if ne.isEmpty then ""
  else cleanPath (String.mk (intercalateSlash (ne.map String.data)))

/-- `buildRevisionLink` of `gerrit/in.go`: parse the base service URL, append
the path segment `c/<change>/<patchset>`, and serialize the composed URL;
fail when the base URL does not parse. -/
def buildRevisionLink (src : Source) (changeNum psNum : Int) :
    Except String String :=
  match parseURL src.url with
  | .error e => .error e
  | .ok srcUrl =>
    .ok (urlToString { srcUrl with
      path := pathJoin [srcUrl.path,
        "c/" ++ toString changeNum ++ "/" ++ toString psNum] })

/-! ## The `in` operation (`gerrit/in.go`, `in`)

The external collaborators of `in` after the Gerrit query — the git binary,
the auth manager's config arguments, and the filesystem — are an environment;
the operation returns a trace of its visible effects next to its outcome. -/

/-- Environment of one `in` invocation: the git executor (`true` is exit
status 0), the auth manager's `gitConfigArgs` result (modelled from the spec:
the auth-manager file is not under `src/`; it yields a git `config` command
referencing the materialized credential file), and filesystem outcomes for
the marker-file write, the `.git/info` mkdir and the exclude-file append. -/
structure InEnv where
  gitExec : List String → Bool
  configArgs : Except String (List String)
  writeFileOk : Bool
  mkdirOk : Bool
  appendExcludeOk : Bool

/-- Visible effects of one `in` invocation: the git commands invoked in
order, the response metadata added, the marker-file document written (if
any), and whether the marker filename was appended to the exclude file. -/
structure InTrace where
  gitTrace : List (List String)
  metadata : List (String × String)
  markerFile : Option Json
  excludeAppended : Bool
  deriving Repr

/-- The `in` operation after request decoding and the Gerrit queries
(`gerrit/in.go` lines 77-144): resolve fetch args, run `git init`, the color
`git config`, the auth `git config`, `git fetch`, `git checkout FETCH_HEAD`
— each non-zero exit fatal — then add metadata (the revision link only when
it builds), write the marker file (fatal on failure), and append the marker
filename to the exclude file (failure only logged). -/
def inCore (env : InEnv) (src : Source) (ver : Version) (params : InParams)
    (change : ChangeInfo) (rev : RevisionInfo) : InTrace × Except String Unit :=
  match resolveFetchArgs params rev with
  | .error e =>
    ({ gitTrace := [], metadata := [], markerFile := none,
       excludeAppended := false },
     .error ("could not resolve fetch args for change \"" ++ change.id ++
       "\": " ++ e))
  | .ok fetchArgs =>
    if env.gitExec ["init"] then
      if env.gitExec ["config", "color.ui", "always"] then
        match env.configArgs with
        | .error e =>
          ({ gitTrace := [["init"], ["config", "color.ui", "always"]],
             metadata := [], markerFile := none, excludeAppended := false },
           .error ("error getting git config args: " ++ e))
        | .ok cargs =>
          if env.gitExec cargs then
            if env.gitExec fetchArgs then
              if env.gitExec ["checkout", "FETCH_HEAD"] then
                let gt := [["init"], ["config", "color.ui", "always"], cargs,
                  fetchArgs, ["checkout", "FETCH_HEAD"]]
                let md :=
                  [("project", change.project), ("subject", change.subject)] ++
                  (match rev.uploader with
                   | some u => [("uploader", u.1 ++ " <" ++ u.2 ++ ">")]
                   | none => []) ++
                  (match buildRevisionLink src change.changeNumber
                      rev.patchSetNumber with
                   | .ok link => [("link", link)]
                   | .error _ => [])
                if env.writeFileOk then
                  ({ gitTrace := gt, metadata := md,
                     markerFile := some ver.toJson,
                     excludeAppended := env.mkdirOk && env.appendExcludeOk },
                   .ok ())
                else
                  ({ gitTrace := gt, metadata := md, markerFile := none,
                     excludeAppended := false },
                   .error "error writing gerrit version file")
              else
                ({ gitTrace := [["init"], ["config", "color.ui", "always"],
                     cargs, fetchArgs, ["checkout", "FETCH_HEAD"]],
                   metadata := [], markerFile := none,
                   excludeAppended := false }, .error "git failed")
            else
              ({ gitTrace := [["init"], ["config", "color.ui", "always"],
                   cargs, fetchArgs],
                 metadata := [], markerFile := none,
                 excludeAppended := false }, .error "git failed")
          else
            ({ gitTrace := [["init"], ["config", "color.ui", "always"], cargs],
               metadata := [], markerFile := none,
               excludeAppended := false }, .error "git failed")
      else
        ({ gitTrace := [["init"], ["config", "color.ui", "always"]],
           metadata := [], markerFile := none,
           excludeAppended := false }, .error "git failed")
    else
      ({ gitTrace := [["init"]], metadata := [], markerFile := none,
         excludeAppended := false }, .error "git failed")

/-! ## The `out` operation (`gerrit/out.go`, `out`) -/

/-- `outParams` of `gerrit/out.go`. -/
structure OutParams where
  repository : String
  message : String
  messageFile : String
  labels : List (String × Int)
  deriving DecidableEq, Repr

/-- `gerrit.ReviewInput` as the resource fills it: message and label map. -/
structure ReviewInput where
  message : String
  labels : List (String × Int)
  deriving DecidableEq, Repr

/-- Environment of one `out` invocation: the marker-file read result, the
message-file read result, the Gerrit-client setup outcome and the review
submission outcome. -/
structure OutEnv where
  readVersion : Except String Version
  readMessageFile : Except String String
  clientOk : Bool
  setReviewOk : Bool

/-- Visible effects of one `out` invocation: the response version set and
the review submitted (change id, revision id, review input), if any. -/
structure OutTrace where
  responseVersion : Option Version
  reviewSent : Option (String × String × ReviewInput)
  deriving Repr

/-- The review-submission tail of `out` (`gerrit/out.go` lines 83-99): set up
the Gerrit client, then `SetReview` keyed by the version's change id and
revision id with the built message and the label scores. -/
def sendReview (env : OutEnv) (ver : Version) (message : String)
    (params : OutParams) : OutTrace × Except String Unit :=
  if env.clientOk then
    let input : ReviewInput := { message := message, labels := params.labels }
    if env.setReviewOk then
      ({ responseVersion := some ver,
         reviewSent := some (ver.changeId, ver.revision, input) }, .ok ())
    else
      ({ responseVersion := some ver,
         reviewSent := some (ver.changeId, ver.revision, input) },
       .error "error sending review")
  else
    ({ responseVersion := some ver, reviewSent := none },
     .error "error setting up gerrit client")

/-- The `out` operation after request decoding (`gerrit/out.go` lines 52-99):
require a repository param, read the marker file's Version (fatal on
failure), set it as the response version, build the message — the message
file's contents when given and readable, else the message param, failing when
the file is unreadable and the param is empty — and submit the review. -/
def outCore (env : OutEnv) (params : OutParams) : OutTrace × Except String Unit :=
  if params.repository = "" then
    ({ responseVersion := none, reviewSent := none },
     .error "param repository required")
  else
    match env.readVersion with
    | .error e =>
      ({ responseVersion := none, reviewSent := none },
       .error ("error reading gerrit version file: " ++ e))
    | .ok ver =>
      if params.messageFile = "" then
        sendReview env ver params.message params
      else
        match env.readMessageFile with
        | .ok contents => sendReview env ver contents params
        | .error _ =>
          if params.message = "" then
            ({ responseVersion := some ver, reviewSent := none },
             .error "no fallback message; failing")
          else
            sendReview env ver params.message params

/-! ## Theorems -/

/-- C1: with neither an explicit fetch URL nor an explicit protocol,
`resolveFetchArgs` scans the preference list `["http", "anonymous http"]` in
order and returns the URL and ref of the first protocol present in the
revision's fetch-option mapping: `"http"` whenever `"http"` is present (in
particular when both are), and `"anonymous http"` when `"http"` is absent
and `"anonymous http"` is present. -/
theorem resolveFetchArgs_default_preference (params : InParams)
    (rev : RevisionInfo) (hurl : params.fetchUrl = "")
    (hproto : params.fetchProtocol = "") :
    (∀ fi, lookupFetch rev.fetch "http" = some fi →
      resolveFetchArgs params rev = .ok ["fetch", fi.url, fi.ref]) ∧
    (lookupFetch rev.fetch "http" = none →
      ∀ fi, lookupFetch rev.fetch "anonymous http" = some fi →
        resolveFetchArgs params rev = .ok ["fetch", fi.url, fi.ref]) := by
  constructor
  · intro fi hfi
    have hsel : selectProtocol rev.fetch = "http" := by
      simp [selectProtocol, defaultFetchProtocols, List.find?, hfi]
    simp [resolveFetchArgs, hurl, hproto, hsel, hfi]
  · intro hnone fi hfi
    have hsel : selectProtocol rev.fetch = "anonymous http" := by
      simp [selectProtocol, defaultFetchProtocols, List.find?, hnone, hfi]
    simp [resolveFetchArgs, hurl, hproto, hsel, hfi]

/-- Witness for C1 in both shapes: a mapping holding both preferred
protocols resolves to the `"http"` endpoint, and a mapping holding only
`"anonymous http"` resolves to that endpoint. -/
theorem resolveFetchArgs_default_preference_witness :
    resolveFetchArgs ⟨"", ""⟩
      ⟨1, none, "r0", [("http", ⟨"uh", "rh"⟩), ("anonymous http", ⟨"ua", "ra"⟩)]⟩ =
      .ok ["fetch", "uh", "rh"] ∧
    resolveFetchArgs ⟨"", ""⟩
      ⟨1, none, "r0", [("anonymous http", ⟨"ua", "ra"⟩)]⟩ =
      .ok ["fetch", "ua", "ra"] :=
  ⟨(resolveFetchArgs_default_preference ⟨"", ""⟩
      ⟨1, none, "r0", [("http", ⟨"uh", "rh"⟩), ("anonymous http", ⟨"ua", "ra"⟩)]⟩
      rfl rfl).1 ⟨"uh", "rh"⟩ rfl,
   (resolveFetchArgs_default_preference ⟨"", ""⟩
      ⟨1, none, "r0", [("anonymous http", ⟨"ua", "ra"⟩)]⟩
      rfl rfl).2 rfl ⟨"ua", "ra"⟩ rfl⟩

/-- C2: with no explicit fetch URL, when the selected protocol — explicit,
or preferred after scanning, or the empty name when none is present — has no
entry in the fetch-option mapping, `resolveFetchArgs` fails with the
NotFound-style error naming that protocol; it never returns another
protocol's endpoint. -/
theorem resolveFetchArgs_missing_protocol (params : InParams)
    (rev : RevisionInfo) (hurl : params.fetchUrl = "")
    (hmiss : lookupFetch rev.fetch (selectedProtocol params rev) = none) :
    resolveFetchArgs params rev =
      .error ("no fetch info for protocol \"" ++
        selectedProtocol params rev ++ "\"") := by
  have hsel : (if params.fetchProtocol = "" then selectProtocol rev.fetch
      else params.fetchProtocol) = selectedProtocol params rev := rfl
  simp only [resolveFetchArgs, hurl, if_pos, hsel, hmiss]

/-- Witness for C2: an empty fetch-option mapping with no explicit protocol
selects the empty protocol name and fails naming it. -/
theorem resolveFetchArgs_missing_protocol_witness :
    resolveFetchArgs ⟨"", ""⟩ ⟨1, none, "r0", []⟩ =
      .error "no fetch info for protocol \"\"" :=
  resolveFetchArgs_missing_protocol ⟨"", ""⟩ ⟨1, none, "r0", []⟩ rfl rfl

/-- C3: with a non-empty explicit fetch URL, `resolveFetchArgs` succeeds and
returns exactly that URL with the revision's native `Ref`, for every
explicit-protocol parameter and every fetch-option mapping. -/
theorem resolveFetchArgs_explicit_url (params : InParams) (rev : RevisionInfo)
    (hurl : params.fetchUrl ≠ "") :
    resolveFetchArgs params rev = .ok ["fetch", params.fetchUrl, rev.ref] := by
  simp [resolveFetchArgs, hurl]

/-- Witness for C3: an explicit URL wins even against an explicit protocol
that is present in the mapping. -/
theorem resolveFetchArgs_explicit_url_witness :
    resolveFetchArgs ⟨"http", "some://otherurl"⟩
      ⟨1, none, "refs/changes/1/1/1", [("http", ⟨"uh", "rh"⟩)]⟩ =
      .ok ["fetch", "some://otherurl", "refs/changes/1/1/1"] :=
  resolveFetchArgs_explicit_url ⟨"http", "some://otherurl"⟩
    ⟨1, none, "refs/changes/1/1/1", [("http", ⟨"uh", "rh"⟩)]⟩ (by decide)

/-- C4: marshalling a Version to the marker file's JSON document and
unmarshalling it back (as `in` writes it and `out` reads it) recovers the
Version exactly, hence a Version equal to the original under `Version.Equal`. -/
theorem version_marker_roundtrip (v : Version) :
    Version.fromJson v.toJson = some v ∧ v.Equal v = true := by
  refine ⟨rfl, ?_⟩
  simp [Version.Equal]

/-- C9: `Version.Equal` holds exactly when the change identifiers and
revision identifiers agree, and replacing either creation timestamp leaves
it unchanged. -/
theorem version_equal_spec (v w : Version) :
    (v.Equal w = true ↔ v.changeId = w.changeId ∧ v.revision = w.revision) ∧
    (∀ c₁ c₂ : Int,
      Version.Equal { v with created := c₁ } { w with created := c₂ } =
        v.Equal w) := by
  constructor
  · simp [Version.Equal]
  · intro c₁ c₂
    simp [Version.Equal]

/-- C5: on every parseable base service URL, `buildRevisionLink` returns the
parsed URL with the path segment `c/<change>/<patchset>` joined onto its
path, serialized; in particular base `https://example.com/path` with change 1
and patchset 1 yields `https://example.com/path/c/1/1`. -/
theorem buildRevisionLink_appends_segment (src : Source) (c p : Int) (u : URL)
    (hparse : parseURL src.url = .ok u) :
    buildRevisionLink src c p =
      .ok (urlToString { u with
        path := pathJoin [u.path,
          "c/" ++ toString c ++ "/" ++ toString p] }) ∧
    buildRevisionLink ⟨"https://example.com/path"⟩ 1 1 =
      .ok "https://example.com/path/c/1/1" := by
  constructor
  · simp [buildRevisionLink, hparse]
  · rfl

/-- Witness for C5: the example base URL parses to scheme `https`, host
`example.com`, path `/path`, and the composed link evaluates to the expected
string. -/
theorem buildRevisionLink_appends_segment_witness :
    buildRevisionLink ⟨"https://example.com/path"⟩ 1 1 =
      .ok (urlToString { URL.mk "https" "example.com" "/path" with
        path := pathJoin ["/path",
          "c/" ++ toString (1 : Int) ++ "/" ++ toString (1 : Int)] }) ∧
    urlToString { URL.mk "https" "example.com" "/path" with
        path := pathJoin ["/path",
          "c/" ++ toString (1 : Int) ++ "/" ++ toString (1 : Int)] } =
      "https://example.com/path/c/1/1" :=
  ⟨(buildRevisionLink_appends_segment ⟨"https://example.com/path"⟩ 1 1
      ⟨"https", "example.com", "/path"⟩ rfl).1, rfl⟩

/-- C6: on every base service URL that does not parse, `buildRevisionLink`
returns the parse error instead of a composed link. -/
theorem buildRevisionLink_unparseable (src : Source) (c p : Int) (e : String)
    (hparse : parseURL src.url = .error e) :
    buildRevisionLink src c p = .error e := by
  simp [buildRevisionLink, hparse]

/-- Witness for C6: a base URL starting with `:` has no protocol scheme and
makes the link builder fail. -/
theorem buildRevisionLink_unparseable_witness :
    buildRevisionLink ⟨"://example.com"⟩ 1 1 =
      .error "missing protocol scheme" :=
  buildRevisionLink_unparseable ⟨"://example.com"⟩ 1 1
    "missing protocol scheme" rfl

/-- C7: whenever fetch args resolve to `fetch <url> <ref>` and the auth
manager yields a `config` command, a successful `in` invocation invokes git
exactly in the order `init`, the `config` commands, `fetch <url> <ref>`,
`checkout FETCH_HEAD`; and every invoked git command that exits non-zero
makes the invocation fail fatally. -/
theorem inCore_git_sequence (env : InEnv) (src : Source) (ver : Version)
    (params : InParams) (change : ChangeInfo) (rev : RevisionInfo)
    (u r : String) (crest : List String)
    (hres : resolveFetchArgs params rev = .ok ["fetch", u, r])
    (hcfg : env.configArgs = .ok ("config" :: crest)) :
    ((inCore env src ver params change rev).2 = .ok () →
      (inCore env src ver params change rev).1.gitTrace =
        [["init"], ["config", "color.ui", "always"], "config" :: crest,
         ["fetch", u, r], ["checkout", "FETCH_HEAD"]]) ∧
    (∀ cmd ∈ (inCore env src ver params change rev).1.gitTrace,
      env.gitExec cmd = false →
        (inCore env src ver params change rev).2 = .error "git failed") := by
  cases hg1 : env.gitExec ["init"] <;>
  cases hg2 : env.gitExec ["config", "color.ui", "always"] <;>
  cases hg3 : env.gitExec ("config" :: crest) <;>
  cases hg4 : env.gitExec ["fetch", u, r] <;>
  cases hg5 : env.gitExec ["checkout", "FETCH_HEAD"] <;>
  cases hw : env.writeFileOk <;>
  simp_all [inCore, hres, hcfg]

/-- Witness for C7: with an all-succeeding git executor the invocation
succeeds and its git trace is exactly the five commands in order. -/
theorem inCore_git_sequence_witness :
    (inCore
      { gitExec := fun _ => true,
        configArgs := .ok ["config", "http.cookieFile", "/tmp/cookies"],
        writeFileOk := true, mkdirOk := true, appendExcludeOk := true }
      ⟨"https://example.com"⟩ ⟨"Itestchange1", "deadbeef0", 12345⟩ ⟨"", ""⟩
      ⟨"testproject~testbranch~Itestchange1", "testproject", "Test Subject", 1⟩
      ⟨1, none, "refs/changes/1/1/1",
        [("http", ⟨"https://example.com/testproject.git",
          "refs/changes/1/1/1"⟩)]⟩).1.gitTrace =
    [["init"], ["config", "color.ui", "always"],
     "config" :: ["http.cookieFile", "/tmp/cookies"],
     ["fetch", "https://example.com/testproject.git", "refs/changes/1/1/1"],
     ["checkout", "FETCH_HEAD"]] :=
  (inCore_git_sequence
    { gitExec := fun _ => true,
      configArgs := .ok ["config", "http.cookieFile", "/tmp/cookies"],
      writeFileOk := true, mkdirOk := true, appendExcludeOk := true }
    ⟨"https://example.com"⟩ ⟨"Itestchange1", "deadbeef0", 12345⟩ ⟨"", ""⟩
    ⟨"testproject~testbranch~Itestchange1", "testproject", "Test Subject", 1⟩
    ⟨1, none, "refs/changes/1/1/1",
      [("http", ⟨"https://example.com/testproject.git",
        "refs/changes/1/1/1"⟩)]⟩
    "https://example.com/testproject.git" "refs/changes/1/1/1"
    ["http.cookieFile", "/tmp/cookies"] rfl rfl).1 rfl

/-- C8: when every git command succeeds and the marker write succeeds, a
failure to build the revision metadata link together with a failure to
append to the exclude file still leaves the invocation successful, with the
marker-file document written. -/
theorem inCore_nonfatal_link_exclude (env : InEnv) (src : Source)
    (ver : Version) (params : InParams) (change : ChangeInfo)
    (rev : RevisionInfo) (fa cargs : List String) (e : String)
    (hres : resolveFetchArgs params rev = .ok fa)
    (hcfg : env.configArgs = .ok cargs)
    (hgit : ∀ cmd, env.gitExec cmd = true)
    (hwrite : env.writeFileOk = true)
    (hlink : buildRevisionLink src change.changeNumber rev.patchSetNumber =
      .error e)
    (hexcl : env.appendExcludeOk = false) :
    (inCore env src ver params change rev).2 = .ok () ∧
    (inCore env src ver params change rev).1.markerFile =
      some ver.toJson := by
  simp [inCore, hres, hcfg, hgit, hwrite, hlink, hexcl]

/-- Witness for C8: an unparseable base service URL (so the link fails) and a
failing exclude append still yield success with the marker written. -/
theorem inCore_nonfatal_link_exclude_witness :
    (inCore
      { gitExec := fun _ => true, configArgs := .ok ["config"],
        writeFileOk := true, mkdirOk := true, appendExcludeOk := false }
      ⟨"://bad"⟩ ⟨"Itestchange1", "deadbeef0", 12345⟩ ⟨"", ""⟩
      ⟨"id1", "testproject", "Test Subject", 1⟩
      ⟨1, none, "refs/changes/1/1/1", [("http", ⟨"uh", "rh"⟩)]⟩).2 =
      .ok () ∧
    (inCore
      { gitExec := fun _ => true, configArgs := .ok ["config"],
        writeFileOk := true, mkdirOk := true, appendExcludeOk := false }
      ⟨"://bad"⟩ ⟨"Itestchange1", "deadbeef0", 12345⟩ ⟨"", ""⟩
      ⟨"id1", "testproject", "Test Subject", 1⟩
      ⟨1, none, "refs/changes/1/1/1", [("http", ⟨"uh", "rh"⟩)]⟩).1.markerFile =
      some (Version.toJson ⟨"Itestchange1", "deadbeef0", 12345⟩) :=
  inCore_nonfatal_link_exclude
    { gitExec := fun _ => true, configArgs := .ok ["config"],
      writeFileOk := true, mkdirOk := true, appendExcludeOk := false }
    ⟨"://bad"⟩ ⟨"Itestchange1", "deadbeef0", 12345⟩ ⟨"", ""⟩
    ⟨"id1", "testproject", "Test Subject", 1⟩
    ⟨1, none, "refs/changes/1/1/1", [("http", ⟨"uh", "rh"⟩)]⟩
    ["fetch", "uh", "rh"] ["config"] "missing protocol scheme"
    rfl rfl (fun _ => rfl) rfl rfl rfl

/-- C10: when the out params name a message file that cannot be read, an
empty message param makes `out` fail with the no-fallback error before any
review is submitted, while a non-empty message param is used as the review
message for the submission. -/
theorem outCore_message_file_fallback (env : OutEnv) (params : OutParams)
    (ver : Version) (e : String)
    (hrepo : params.repository ≠ "")
    (hver : env.readVersion = .ok ver)
    (hmf : params.messageFile ≠ "")
    (hread : env.readMessageFile = .error e) :
    (params.message = "" →
      outCore env params =
        ({ responseVersion := some ver, reviewSent := none },
         .error "no fallback message; failing")) ∧
    (params.message ≠ "" → env.clientOk = true →
      (outCore env params).1.reviewSent =
        some (ver.changeId, ver.revision,
          { message := params.message, labels := params.labels })) := by
  constructor
  · intro hmsg
    simp [outCore, hrepo, hver, hmf, hread, hmsg]
  · intro hmsg hclient
    cases hs : env.setReviewOk <;>
      simp [outCore, sendReview, hrepo, hver, hmf, hread, hmsg, hclient, hs]

/-- Witness for C10 in both shapes: with an unreadable message file, an empty
message fails before submitting, and a non-empty message is submitted as the
review message. -/
theorem outCore_message_file_fallback_witness :
    outCore
      { readVersion := .ok ⟨"Itestchange1", "deadbeef0", 0⟩,
        readMessageFile := .error "open failed", clientOk := true,
        setReviewOk := true }
      ⟨"repo", "", "msg.txt", []⟩ =
      ({ responseVersion := some ⟨"Itestchange1", "deadbeef0", 0⟩,
         reviewSent := none }, .error "no fallback message; failing") ∧
    (outCore
      { readVersion := .ok ⟨"Itestchange1", "deadbeef0", 0⟩,
        readMessageFile := .error "open failed", clientOk := true,
        setReviewOk := true }
      ⟨"repo", "fallback", "msg.txt", [("Code-Review", 1)]⟩).1.reviewSent =
      some ("Itestchange1", "deadbeef0",
        { message := "fallback", labels := [("Code-Review", 1)] }) :=
  ⟨(outCore_message_file_fallback
      { readVersion := .ok ⟨"Itestchange1", "deadbeef0", 0⟩,
        readMessageFile := .error "open failed", clientOk := true,
        setReviewOk := true }
      ⟨"repo", "", "msg.txt", []⟩ ⟨"Itestchange1", "deadbeef0", 0⟩
      "open failed" (by decide) rfl (by decide) rfl).1 rfl,
   (outCore_message_file_fallback
      { readVersion := .ok ⟨"Itestchange1", "deadbeef0", 0⟩,
        readMessageFile := .error "open failed", clientOk := true,
        setReviewOk := true }
      ⟨"repo", "fallback", "msg.txt", [("Code-Review", 1)]⟩
      ⟨"Itestchange1", "deadbeef0", 0⟩
      "open failed" (by decide) rfl (by decide) rfl).2 (by decide) rfl⟩

end ConcourseGerrit
